import Mathlib

/-!
Shallow embedding of the playback/playlist controller of the react-mp3-player
repository.

The controller is the React hook in src/hooks/useAudioPlayer.js: a record of
state variables mutated by user commands (loadTrack, play, pause, stop, seek,
changeVolume, addToPlaylist, removeFromPlaylist, clearPlaylist, playTrack,
playNext, playPrevious) and by event handlers attached to one shared
HTMLAudioElement (handleLoadedMetadata, handleEnded, ...).  Every operation
below is the line-by-line translation of the corresponding JavaScript function
into a pure state transformer.  JavaScript numbers that hold times, durations
and volumes are modelled as rationals; playlist indices as integers (the code
compares them with 0 and with playlist.length, and callers may pass negative
values); the remainder operator of JavaScript (sign of the dividend) is
Int.tmod.

The navigation-policy utilities (shuffleArray, getNextTrackIndex,
getPreviousTrackIndex) come from the audio-utils module bundled in
src/index.js; Math.random draws of the Fisher-Yates loop are modelled as an
explicit draw function giving, for each loop position i, the value
floor(random * (i + 1)).
-/

namespace Mp3Player

/-- Track descriptor as consumed by the hook: the hook reads only the id
(playlist bookkeeping) and the url (assigned to the audio element source).
Further intake metadata (name, size, mime type) plays no role in the
controller and is omitted. -/
structure Track where
  id : Nat
  url : String
deriving DecidableEq

/-- Model of the single shared HTMLAudioElement owned by the hook.  Commands
set src, paused, currentTime, volume and muted.  Loading is modelled with
pendingMeta: assigning src and calling load() starts a resource fetch whose
metadata will eventually resolve to the duration stored in pendingMeta; per
the HTMLMediaElement contract, load() first aborts any fetch still in flight,
so only the most recent load can ever fire a loadedmetadata event.  When the
pending fetch resolves, metaDuration becomes known and the loadedmetadata
handler of the hook runs. -/
structure AudioEl where
  src : Option String
  paused : Bool
  currentTime : Rat
  volume : Rat
  muted : Bool
  pendingMeta : Option Rat
  metaDuration : Option Rat
deriving DecidableEq

/-- The state of useAudioPlayer: one field per useState variable of the hook,
plus the shared audio element.  playbackRate and the buffered ranges are
untouched by the claims and omitted. -/
structure PlayerState where
  audio : AudioEl
  isPlaying : Bool
  isLoading : Bool
  duration : Rat
  currentTime : Rat
  volume : Rat
  isMuted : Bool
  currentTrack : Option Track
  playlist : List Track
  currentTrackIndex : Int
  error : Option String
  isBuffering : Bool
deriving DecidableEq

/-- Initial state: the useState defaults of the hook and a fresh audio
element. -/
def initState : PlayerState :=
  { audio := { src := none, paused := true, currentTime := 0, volume := 1,
               muted := false, pendingMeta := none, metaDuration := none },
    isPlaying := false, isLoading := false, duration := 0, currentTime := 0,
    volume := 1, isMuted := false, currentTrack := none, playlist := [],
    currentTrackIndex := 0, error := none, isBuffering := false }

/-- loadTrack (useAudioPlayer.js lines 101-116): guard on a missing track,
pause the element, reset isPlaying/currentTime/error, assign the new source
and call load(), record the current track.  The parameter res gives the
intrinsic duration of each source url; assigning src and calling load()
replaces any pending fetch (the element aborts it) with a fetch that will
resolve to res url. -/
def loadTrack (res : String → Rat) (s : PlayerState) (track? : Option Track) :
    PlayerState :=
  match track? with
  | none => s
  | some track =>
    { s with
      audio := { s.audio with
                   paused := true,
                   src := some track.url,
                   pendingMeta := some (res track.url),
                   metaDuration := none },
      isPlaying := false,
      currentTime := 0,
      error := none,
      currentTrack := some track }

/-- Resolution of the pending metadata fetch: the element learns its
duration and fires loadedmetadata, running handleLoadedMetadata
(useAudioPlayer.js lines 33-36), which copies audio.duration into the
duration state and clears isLoading.  With no fetch pending, nothing
happens. -/
def deliverMetadata (s : PlayerState) : PlayerState :=
  match s.audio.pendingMeta with
  | none => s
  | some d =>
    { s with
      audio := { s.audio with pendingMeta := none, metaDuration := some d },
      duration := d,
      isLoading := false }

/-- play (useAudioPlayer.js lines 119-131): guard on a missing current track;
the awaited element play() either succeeds (isPlaying true, error cleared) or
rejects (error recorded, isPlaying false).  The outcome of the asynchronous
attempt is the succeeds parameter. -/
def play (s : PlayerState) (succeeds : Bool) : PlayerState :=
  match s.currentTrack with
  | none => s
  | some _ =>
    if succeeds then
      { s with error := none,
               audio := { s.audio with paused := false },
               isPlaying := true }
    else
      { s with error := some "Failed to play audio", isPlaying := false }

/-- stop (useAudioPlayer.js lines 151-158): pause the element, reset both the
element position and the state position to 0. -/
def stop (s : PlayerState) : PlayerState :=
  { s with audio := { s.audio with paused := true, currentTime := 0 },
           isPlaying := false, currentTime := 0 }

/-- seek (useAudioPlayer.js lines 161-167): clamp the requested time to
[0, duration] with max/min and write it to the element and the state.
There is no guard on a track being loaded and no guard on the duration;
the function is total (never throws). -/
def seek (s : PlayerState) (time : Rat) : PlayerState :=
  let clampedTime := max 0 (min time s.duration)
  { s with audio := { s.audio with currentTime := clampedTime },
           currentTime := clampedTime }

/-- changeVolume (useAudioPlayer.js lines 170-182): clamp to [0,1], write the
volume, and clear the mute flag when the clamped volume is positive while the
session is muted. -/
def changeVolume (s : PlayerState) (newVolume : Rat) : PlayerState :=
  let clampedVolume := max 0 (min 1 newVolume)
  let s1 := { s with audio := { s.audio with volume := clampedVolume },
                     volume := clampedVolume }
  if 0 < clampedVolume ∧ s.isMuted = true then
    { s1 with audio := { s1.audio with muted := false }, isMuted := false }
  else s1

/-- addToPlaylist (useAudioPlayer.js lines 202-204): append the track at the
tail, overriding its id with a freshly generated one.  The generated value
Date.now() + Math.random() is the freshId parameter.  There is no
duplicate-id check and no failure path. -/
def addToPlaylist (s : PlayerState) (track : Track) (freshId : Nat) :
    PlayerState :=
  { s with playlist := s.playlist ++ [{ track with id := freshId }] }

/-- removeFromPlaylist (useAudioPlayer.js lines 207-219): drop every entry
with the given id, and when the first matching position (findIndex) is at or
before the current index, shift the current index down by one clamped at 0.
Nothing else changes: playback, the current track and the audio element are
untouched. -/
def removeFromPlaylist (s : PlayerState) (trackId : Nat) : PlayerState :=
  let newPlaylist := s.playlist.filter (fun track => track.id != trackId)
  let newIndex :=
    match s.playlist.findIdx? (fun track => track.id == trackId) with
    | some removedIndex =>
        if (removedIndex : Int) ≤ s.currentTrackIndex then
          max 0 (s.currentTrackIndex - 1)
        else s.currentTrackIndex
    | none => s.currentTrackIndex
  { s with playlist := newPlaylist, currentTrackIndex := newIndex }

/-- clearPlaylist (useAudioPlayer.js lines 222-227): empty the playlist,
reset the index, stop, drop the current track.  Note the duration state is
left as it was. -/
def clearPlaylist (s : PlayerState) : PlayerState :=
  { stop { s with playlist := [], currentTrackIndex := 0 } with
    currentTrack := none }

/-- playTrack (useAudioPlayer.js lines 230-236): silently return on an index
outside [0, playlist.length); otherwise record the index and load the track
at that position. -/
def playTrack (res : String → Rat) (s : PlayerState) (trackIndex : Int) :
    PlayerState :=
  if trackIndex < 0 ∨ (s.playlist.length : Int) ≤ trackIndex then s
  else
    match s.playlist[trackIndex.toNat]? with
    | none => s
    | some track =>
        loadTrack res { s with currentTrackIndex := trackIndex } (some track)

/-- playNext (useAudioPlayer.js lines 239-244): on a non-empty playlist, play
the track at (currentTrackIndex + 1) % playlist.length, with the JavaScript
remainder (sign of the dividend) modelled by Int.tmod. -/
def playNext (res : String → Rat) (s : PlayerState) : PlayerState :=
  if s.playlist.length = 0 then s
  else playTrack res s ((s.currentTrackIndex + 1).tmod (s.playlist.length : Int))

/-- playPrevious (useAudioPlayer.js lines 247-252). -/
def playPrevious (res : String → Rat) (s : PlayerState) : PlayerState :=
  if s.playlist.length = 0 then s
  else
    let prevIndex : Int :=
      if s.currentTrackIndex = 0 then (s.playlist.length : Int) - 1
      else s.currentTrackIndex - 1
    playTrack res s prevIndex

/-- handleEnded (useAudioPlayer.js lines 46-53): on the ended event, clear
isPlaying and the position, then auto-play the next track only when the
playlist is non-empty and the current index is strictly below the last
index. -/
def handleEnded (res : String → Rat) (s : PlayerState) : PlayerState :=
  let s1 := { s with isPlaying := false, currentTime := 0 }
  if 0 < s.playlist.length ∧
      s.currentTrackIndex < (s.playlist.length : Int) - 1 then
    playNext res s1
  else s1

/-- JavaScript Array.prototype.indexOf on a list of integers: the first
matching position, or -1. -/
def jsIndexOf (l : List Int) (a : Int) : Int :=
  match l.findIdx? (fun x => x == a) with
  | some i => (i : Int)
  | none => -1

/-- getNextTrackIndex (audio utils in src/index.js, lines 382-392): -1 on an
empty playlist; in shuffle mode with a non-empty permutation, step forward in
the permutation; otherwise (currentIndex + 1) % totalTracks with the
JavaScript remainder.  In the shuffle branch the computed position is always
inside the permutation, so the JavaScript array read is total there. -/
def getNextTrackIndex (currentIndex totalTracks : Int) (shuffle : Bool)
    (shuffledIndices : List Int) : Int :=
  if totalTracks = 0 then -1
  else if shuffle = true ∧ 0 < shuffledIndices.length then
    let currentShuffleIndex := jsIndexOf shuffledIndices currentIndex
    let nextShuffleIndex :=
      (currentShuffleIndex + 1).tmod (shuffledIndices.length : Int)
    shuffledIndices.getD nextShuffleIndex.toNat (-1)
  else (currentIndex + 1).tmod totalTracks

/-- getPreviousTrackIndex (audio utils in src/index.js, lines 402-412): -1 on
an empty playlist; in shuffle mode step backward in the permutation (when the
current index does not occur in it, the JavaScript code reads position -2 and
gets undefined; that unreachable-in-use corner is modelled by the getD
default); in linear mode totalTracks - 1 when currentIndex = 0, else
currentIndex - 1. -/
def getPreviousTrackIndex (currentIndex totalTracks : Int) (shuffle : Bool)
    (shuffledIndices : List Int) : Int :=
  if totalTracks = 0 then -1
  else if shuffle = true ∧ 0 < shuffledIndices.length then
    let currentShuffleIndex := jsIndexOf shuffledIndices currentIndex
    let prevShuffleIndex :=
      if currentShuffleIndex = 0 then (shuffledIndices.length : Int) - 1
      else currentShuffleIndex - 1
    shuffledIndices.getD prevShuffleIndex.toNat (-1)
  else if currentIndex = 0 then totalTracks - 1 else currentIndex - 1

/-- Exchange of the entries at positions i and j, as performed by the
destructuring assignment of the Fisher-Yates loop.  Both positions are in
bounds at every use in the loop; out of bounds the list is returned
unchanged. -/
def swapL {α : Type} (l : List α) (i j : Nat) : List α :=
  match l[i]?, l[j]? with
  | some x, some y => (l.set i y).set j x
  | _, _ => l

/-- The Fisher-Yates loop of shuffleArray: for i from the first argument down
to 1, exchange position i with position draw i, where draw i models
floor(random * (i + 1)). -/
def fyLoop {α : Type} (draw : Nat → Nat) : Nat → List α → List α
  | 0, a => a
  | i + 1, a => fyLoop draw i (swapL a (i + 1) (draw (i + 1)))

/-- shuffleArray (audio utils in src/index.js, lines 365-372): copy the
array and run the Fisher-Yates loop from length - 1 down to 1. -/
def shuffleArray {α : Type} (draw : Nat → Nat) (array : List α) : List α :=
  fyLoop draw (array.length - 1) array

/-! ## Concrete scenario states used by counterexamples and witnesses -/

/-- A resolver giving every source url the duration 100. -/
def res0 : String → Rat := fun _ => 100

/-- One track added to a fresh session. -/
def oneTrack : PlayerState := addToPlaylist initState ⟨0, "a"⟩ 1

/-- Two tracks added to a fresh session (generated ids 1 and 2). -/
def twoTracks : PlayerState := addToPlaylist oneTrack ⟨0, "b"⟩ 2

/-- A muted session, used to exercise the unmute rule of changeVolume. -/
def mutedSession : PlayerState := { initState with isMuted := true }

/-! ## Claim theorems -/

/-- Claim C5: in linear mode, getNextTrackIndex returns -1 when the length is
0 and otherwise (current + 1) mod length, wrapping to 0 after the last track.
Stated for every current index the controller can hold (-1 or a position)
and every nonnegative length; on that domain the JavaScript remainder agrees
with the Euclidean mod of the claim. -/
theorem C5_nextIndex_linear (current len : Int) (hc : -1 ≤ current)
    (hl : 0 ≤ len) :
    getNextTrackIndex current len false [] =
      if len = 0 then -1 else (current + 1) % len := by
  unfold getNextTrackIndex
  by_cases h : len = 0
  · simp [h]
  · rw [if_neg h, if_neg h, if_neg (by simp), Int.tmod_eq_emod (by omega) hl]

/-- Witness for C5 at current = 2, len = 3: the next index wraps to 0. -/
theorem C5_witness :
    getNextTrackIndex 2 3 false [] = if (3 : Int) = 0 then -1 else (2 + 1) % 3 :=
  C5_nextIndex_linear 2 3 (by decide) (by decide)

/-- Claim C6: for every non-empty playlist and every valid start index,
getPreviousTrackIndex inverts getNextTrackIndex in linear mode. -/
theorem C6_prev_next_roundtrip (current len : Int) (h0 : 0 ≤ current)
    (h1 : current < len) :
    getPreviousTrackIndex (getNextTrackIndex current len false []) len false []
      = current := by
  have hlen : len ≠ 0 := by omega
  have hnext : getNextTrackIndex current len false []
      = (current + 1) % len := by
    unfold getNextTrackIndex
    rw [if_neg hlen, if_neg (by simp), Int.tmod_eq_emod (by omega) (by omega)]
  by_cases hlast : current = len - 1
  · have hzero : (current + 1) % len = 0 := by
      rw [hlast]
      simp
    rw [hnext, hzero]
    unfold getPreviousTrackIndex
    rw [if_neg hlen, if_neg (by simp), if_pos rfl]
    omega
  · have hv : (current + 1) % len = current + 1 :=
      Int.emod_eq_of_lt (by omega) (by omega)
    rw [hnext, hv]
    unfold getPreviousTrackIndex
    rw [if_neg hlen, if_neg (by simp), if_neg (by omega)]
    omega

/-- Witness for C6 at current = 2, len = 3 (the wrap-around corner). -/
theorem C6_witness :
    getPreviousTrackIndex (getNextTrackIndex 2 3 false []) 3 false [] = 2 :=
  C6_prev_next_roundtrip 2 3 (by decide) (by decide)

/-- Claim C10: playTrack with an index outside [0, playlist.length) is a
silent no-op: the whole session state, playlist and transport included, is
returned unchanged and no error is recorded. -/
theorem C10_playTrack_out_of_range (res : String → Rat) (s : PlayerState)
    (idx : Int) (h : idx < 0 ∨ (s.playlist.length : Int) ≤ idx) :
    playTrack res s idx = s := by
  unfold playTrack
  rw [if_pos h]

/-- Witness for C10: index 5 on the two-track playlist changes nothing. -/
theorem C10_witness : playTrack res0 twoTracks 5 = twoTracks :=
  C10_playTrack_out_of_range res0 twoTracks 5 (by decide)

/-- Claim C8: changeVolume clamps to [0,1]; a strictly positive clamped
volume while muted clears the mute flag; otherwise (clamped volume 0, or not
muted) the mute flag is left as it was. -/
theorem C8_changeVolume_spec (s : PlayerState) (v : Rat) :
    0 ≤ (changeVolume s v).volume ∧ (changeVolume s v).volume ≤ 1 ∧
      (0 < (changeVolume s v).volume → s.isMuted = true →
        (changeVolume s v).isMuted = false) ∧
      ((changeVolume s v).volume = 0 ∨ s.isMuted = false →
        (changeVolume s v).isMuted = s.isMuted) := by
  have hc0 : (0 : Rat) ≤ max 0 (min 1 v) := le_max_left 0 _
  have hc1 : max 0 (min 1 v) ≤ 1 := max_le zero_le_one (min_le_left 1 v)
  unfold changeVolume
  dsimp only
  split_ifs with h
  · refine ⟨hc0, hc1, fun _ _ => rfl, ?_⟩
    rintro (hz | hm)
    · exact absurd hz (by simpa using ne_of_gt h.1)
    · rw [h.2] at hm
      exact absurd hm (by simp)
  · refine ⟨hc0, hc1, ?_, fun _ => rfl⟩
    intro hpos hm
    exact absurd ⟨hpos, hm⟩ h

/-- Witness for C8 at volume 2 (clamped to 1) on a muted session. -/
theorem C8_witness :
    0 ≤ (changeVolume mutedSession 2).volume ∧
      (changeVolume mutedSession 2).volume ≤ 1 ∧
      (0 < (changeVolume mutedSession 2).volume → mutedSession.isMuted = true →
        (changeVolume mutedSession 2).isMuted = false) ∧
      ((changeVolume mutedSession 2).volume = 0 ∨ mutedSession.isMuted = false →
        (changeVolume mutedSession 2).isMuted = mutedSession.isMuted) :=
  C8_changeVolume_spec mutedSession 2

/-- The state reached by loading the only track of a one-track playlist,
resolving its metadata (duration 100), and then clearing the playlist:
clearPlaylist drops the current track and resets the position but leaves the
duration state at its stale value 100. -/
def staleDuration : PlayerState :=
  clearPlaylist (deliverMetadata (playTrack res0 oneTrack 0))

/-- Counterexample for C7: in a reachable state with no loaded track but a
stale duration, seek is not a no-op — it moves the position to 50. -/
theorem C7_counterexample :
    staleDuration.currentTrack = none ∧
      (seek staleDuration 50).currentTime = 50 ∧
      seek staleDuration 50 ≠ staleDuration := by decide

/-- Claim C7 as amended: for every input time, seek leaves the position in
[0, duration] (the duration state is nonnegative in every reachable state)
and never throws (it is a total function); when the duration is unknown (0)
the position is set to 0.  seek is not guarded on a track being loaded. -/
theorem C7_seek_clamped (s : PlayerState) (t : Rat) (hd : 0 ≤ s.duration) :
    0 ≤ (seek s t).currentTime ∧ (seek s t).currentTime ≤ s.duration ∧
      (s.duration = 0 → (seek s t).currentTime = 0) := by
  unfold seek
  dsimp only
  refine ⟨le_max_left 0 _, max_le hd (min_le_right t s.duration), ?_⟩
  intro h
  rw [h]
  exact max_eq_left (min_le_right t 0)

/-- Witness for C7 at the stale-duration state and a negative time. -/
theorem C7_witness :
    0 ≤ (seek staleDuration (-3)).currentTime ∧
      (seek staleDuration (-3)).currentTime ≤ staleDuration.duration ∧
      (staleDuration.duration = 0 → (seek staleDuration (-3)).currentTime = 0) :=
  C7_seek_clamped staleDuration (-3) (by decide)

/-- A playlist holding the single track with generated id 5. -/
def dupIdState : PlayerState := addToPlaylist initState ⟨9, "a"⟩ 5

/-- Counterexample for C3: with a track of id 5 already present, adding a
track whose id is also 5 (and whose generated fresh id is again 5) succeeds
— the entry is appended and the playlist even ends up holding two tracks
with the same id; no DuplicateIdError exists anywhere in the code. -/
theorem C3_counterexample :
    dupIdState.playlist = [⟨5, "a"⟩] ∧
      (addToPlaylist dupIdState ⟨5, "b"⟩ 5).playlist =
        [⟨5, "a"⟩, ⟨5, "b"⟩] := by decide

/-- Claim C3 as amended: addToPlaylist always appends exactly one entry at
the tail — the input track with its id replaced by the generated fresh id —
leaving every existing entry in place; it never fails, duplicate ids
included. -/
theorem C3_add_appends (s : PlayerState) (track : Track) (freshId : Nat) :
    (addToPlaylist s track freshId).playlist.take s.playlist.length
        = s.playlist ∧
      (addToPlaylist s track freshId).playlist.getLast?
        = some { track with id := freshId } ∧
      (addToPlaylist s track freshId).playlist.length
        = s.playlist.length + 1 := by
  unfold addToPlaylist
  exact ⟨List.take_left _ _, List.getLast?_concat _, by simp⟩

/-- Witness for C3: appending to the one-track playlist. -/
theorem C3_witness :
    (addToPlaylist oneTrack ⟨3, "c"⟩ 7).playlist.take oneTrack.playlist.length
        = oneTrack.playlist ∧
      (addToPlaylist oneTrack ⟨3, "c"⟩ 7).playlist.getLast? = some ⟨7, "c"⟩ ∧
      (addToPlaylist oneTrack ⟨3, "c"⟩ 7).playlist.length
        = oneTrack.playlist.length + 1 :=
  C3_add_appends oneTrack ⟨3, "c"⟩ 7

/-- The one-track playlist with its track loaded and playing. -/
def playingOne : PlayerState := play (playTrack res0 oneTrack 0) true

/-- Counterexample for C2: removing the currently loaded and playing track
(id 1) empties the playlist but does NOT stop playback and does NOT put the
session in the Empty state — isPlaying stays true and currentTrack stays
set. -/
theorem C2_counterexample :
    playingOne.currentTrack = some ⟨1, "a"⟩ ∧
      playingOne.isPlaying = true ∧
      (removeFromPlaylist playingOne 1).playlist = [] ∧
      (removeFromPlaylist playingOne 1).isPlaying = true ∧
      (removeFromPlaylist playingOne 1).currentTrack = some ⟨1, "a"⟩ := by
  decide

/-- Claim C2 as amended: removeFromPlaylist performs playlist and index
bookkeeping only.  Whenever the removed position is at or before the current
index, the index shifts down by one clamped at 0, the matching entries are
dropped, and everything else — playback flag, current track, the audio
element — is untouched, even when the removed track is the currently loaded
one. -/
theorem C2_remove_keeps_playback (s : PlayerState) (trackId : Nat) (i : Nat)
    (hfind : s.playlist.findIdx? (fun track => track.id == trackId) = some i)
    (hle : (i : Int) ≤ s.currentTrackIndex) :
    (removeFromPlaylist s trackId).isPlaying = s.isPlaying ∧
      (removeFromPlaylist s trackId).currentTrack = s.currentTrack ∧
      (removeFromPlaylist s trackId).audio = s.audio ∧
      (removeFromPlaylist s trackId).currentTrackIndex
        = max 0 (s.currentTrackIndex - 1) ∧
      (removeFromPlaylist s trackId).playlist
        = s.playlist.filter (fun track => track.id != trackId) := by
  unfold removeFromPlaylist
  rw [hfind]
  dsimp only
  rw [if_pos hle]
  exact ⟨rfl, rfl, rfl, rfl, rfl⟩

/-- The two-track playlist with the second track loaded and playing. -/
def playingSecond : PlayerState := play (playTrack res0 twoTracks 1) true

/-- Witness for C2: removing the first track (id 1, position 0) while the
current index is 1 shifts the index down to 0. -/
theorem C2_witness :
    (removeFromPlaylist playingSecond 1).currentTrackIndex
      = max 0 (playingSecond.currentTrackIndex - 1) :=
  (C2_remove_keeps_playback playingSecond 1 0 (by decide) (by decide)).2.2.2.1

/-- Counterexample for C1: on a two-track playlist, playing the track at the
LAST index (1), the ended event does not wrap to index 0, loads nothing and
starts nothing: the whole effect is isPlaying := false and position 0, so
playback is NOT continuous at the last index. -/
theorem C1_counterexample :
    playingSecond.playlist.length = 2 ∧
      playingSecond.currentTrackIndex = 1 ∧
      playingSecond.isPlaying = true ∧
      handleEnded res0 playingSecond
        = { playingSecond with isPlaying := false, currentTime := 0 } := by
  decide

/-- Claim C1 as amended: on the ended event the controller stops (isPlaying
false, position 0).  Only when the current index is strictly below the last
index does it auto-advance, loading the track at index current + 1 — but it
does not issue play(), so the advanced-to track sits loaded and paused; at
the last index (and on empty playlists) nothing is loaded and no wrap-around
to index 0 happens. -/
theorem C1_handleEnded_spec (res : String → Rat) (s : PlayerState)
    (h0 : 0 ≤ s.currentTrackIndex) :
    (s.currentTrackIndex < (s.playlist.length : Int) - 1 →
      (handleEnded res s).currentTrackIndex = s.currentTrackIndex + 1 ∧
      (handleEnded res s).currentTrack
        = s.playlist[(s.currentTrackIndex + 1).toNat]? ∧
      (handleEnded res s).isPlaying = false) ∧
    ((s.playlist.length : Int) - 1 ≤ s.currentTrackIndex →
      handleEnded res s = { s with isPlaying := false, currentTime := 0 }) := by
  constructor
  · intro hlt
    have hlen : 0 < s.playlist.length := by omega
    have hlt2 : (s.currentTrackIndex + 1).toNat < s.playlist.length := by omega
    unfold handleEnded
    rw [if_pos ⟨hlen, hlt⟩]
    unfold playNext
    dsimp only
    rw [if_neg (by omega)]
    have htmod : (s.currentTrackIndex + 1).tmod (s.playlist.length : Int)
        = s.currentTrackIndex + 1 := by
      rw [Int.tmod_eq_emod (by omega) (by omega)]
      exact Int.emod_eq_of_lt (by omega) (by omega)
    rw [htmod]
    unfold playTrack
    dsimp only
    rw [if_neg (by omega), List.getElem?_eq_getElem hlt2]
    exact ⟨rfl, rfl, rfl⟩
  · intro hge
    unfold handleEnded
    rw [if_neg (by omega)]

/-- The two-track playlist with the first track loaded and playing. -/
def playingFirst : PlayerState := play (playTrack res0 twoTracks 0) true

/-- Witness for C1: from index 0 of the two-track playlist, ended advances
the index to 1. -/
theorem C1_witness :
    (handleEnded res0 playingFirst).currentTrackIndex
      = playingFirst.currentTrackIndex + 1 :=
  ((C1_handleEnded_spec res0 playingFirst (by decide)).1 (by decide)).1

/-- The scenario of the superseded-load claim: loadTrack x, then loadTrack y
before the metadata of x resolves (assigning the new source calls load(),
which aborts the fetch still in flight for x), then any number of metadata
resolutions. -/
def afterReload (res : String → Rat) (s : PlayerState) (x y : Track)
    (n : Nat) : PlayerState :=
  deliverMetadata^[n] (loadTrack res (loadTrack res s (some x)) (some y))

/-- Invariant tying a session to the most recently loaded track y: the
current track and source are those of y, the duration is either the stale
pre-load value or the duration of y, and at most the fetch of y is
pending. -/
def MetaInv (res : String → Rat) (d0 : Rat) (y : Track) (u : PlayerState) :
    Prop :=
  u.currentTrack = some y ∧ u.audio.src = some y.url ∧
    (u.duration = d0 ∨ u.duration = res y.url) ∧
    (u.audio.pendingMeta = none ∨ u.audio.pendingMeta = some (res y.url))

/-- A metadata resolution preserves MetaInv: with nothing pending it is a
no-op, and with the fetch of y pending it writes the duration of y. -/
theorem metaInv_deliver {res : String → Rat} {d0 : Rat} {y : Track}
    {u : PlayerState} (h : MetaInv res d0 y u) :
    MetaInv res d0 y (deliverMetadata u) := by
  obtain ⟨h1, h2, h3, h4⟩ := h
  rcases h4 with h4 | h4
  · unfold deliverMetadata
    rw [h4]
    exact ⟨h1, h2, h3, Or.inl h4⟩
  · unfold deliverMetadata MetaInv
    rw [h4]
    exact ⟨h1, h2, Or.inr rfl, Or.inl rfl⟩

/-- Claim C4: after loadTrack x is superseded by loadTrack y before the
metadata of x resolves, every later metadata resolution leaves the session
reflecting only y: the current track is y, the source is the url of y, and
the duration is either still the stale pre-load value (no resolution yet) or
the duration of y — never the duration of x.  The late callback of x cannot
mutate state because assigning the new source and calling load() aborts the
fetch of x (HTMLMediaElement contract), leaving only the fetch of y able to
fire loadedmetadata. -/
theorem C4_superseded_load (res : String → Rat) (s : PlayerState)
    (x y : Track) (n : Nat) :
    (afterReload res s x y n).currentTrack = some y ∧
      (afterReload res s x y n).audio.src = some y.url ∧
      ((afterReload res s x y n).duration = s.duration ∨
        (afterReload res s x y n).duration = res y.url) := by
  have base : MetaInv res s.duration y
      (loadTrack res (loadTrack res s (some x)) (some y)) :=
    ⟨rfl, rfl, Or.inl rfl, Or.inr rfl⟩
  have inv : ∀ m : Nat, MetaInv res s.duration y
      (deliverMetadata^[m] (loadTrack res (loadTrack res s (some x)) (some y))) := by
    intro m
    induction m with
    | zero => exact base
    | succ k ih =>
      rw [Function.iterate_succ_apply']
      exact metaInv_deliver ih
  obtain ⟨h1, h2, h3, _⟩ := inv n
  exact ⟨h1, h2, h3⟩

/-- Exchanging the entries at two valid positions yields a permutation:
helper stepping one cons past the list head. -/
theorem cons_set_perm {α : Type} :
    ∀ (t : List α) (k : Nat) (y a : α), t[k]? = some y →
      List.Perm (y :: t.set k a) (a :: t) := by
  intro t
  induction t with
  | nil =>
    intro k y a h
    simp at h
  | cons b u ih =>
    intro k y a h
    cases k with
    | zero =>
      rw [List.getElem?_cons_zero] at h
      injection h with hb
      subst hb
      exact List.Perm.swap a b u
    | succ m =>
      rw [List.getElem?_cons_succ] at h
      show List.Perm (y :: b :: u.set m a) (a :: b :: u)
      exact List.Perm.trans (List.Perm.swap b y (u.set m a))
        (List.Perm.trans (List.Perm.cons b (ih m y a h))
          (List.Perm.swap a b u))

/-- Writing the entry at position j over position i and the entry at
position i over position j permutes the list. -/
theorem set_set_perm {α : Type} :
    ∀ (l : List α) (i j : Nat) (x y : α), l[i]? = some x → l[j]? = some y →
      List.Perm ((l.set i y).set j x) l := by
  intro l
  induction l with
  | nil =>
    intro i j x y hx _
    simp at hx
  | cons a t ih =>
    intro i j x y hx hy
    cases i with
    | zero =>
      rw [List.getElem?_cons_zero] at hx
      injection hx with hx
      cases j with
      | zero =>
        rw [List.getElem?_cons_zero] at hy
        injection hy with hy
        show List.Perm (x :: t) (a :: t)
        rw [← hx]
      | succ m =>
        rw [List.getElem?_cons_succ] at hy
        show List.Perm (y :: t.set m x) (a :: t)
        rw [← hx]
        exact cons_set_perm t m y a hy
    | succ k =>
      rw [List.getElem?_cons_succ] at hx
      cases j with
      | zero =>
        rw [List.getElem?_cons_zero] at hy
        injection hy with hy
        show List.Perm (x :: t.set k y) (a :: t)
        rw [← hy]
        exact cons_set_perm t k x a hx
      | succ m =>
        rw [List.getElem?_cons_succ] at hy
        show List.Perm (a :: (t.set k y).set m x) (a :: t)
        exact List.Perm.cons a (ih k m x y hx hy)

/-- One exchange of the Fisher-Yates loop permutes the list, whatever the
positions. -/
theorem swapL_perm {α : Type} (l : List α) (i j : Nat) :
    List.Perm (swapL l i j) l := by
  unfold swapL
  rcases hx : l[i]? with _ | x
  · exact List.Perm.refl l
  · rcases hy : l[j]? with _ | y
    · exact List.Perm.refl l
    · exact set_set_perm l i j x y hx hy

/-- The whole Fisher-Yates loop permutes the list, for every draw
function. -/
theorem fyLoop_perm {α : Type} (draw : Nat → Nat) :
    ∀ (n : Nat) (a : List α), List.Perm (fyLoop draw n a) a := by
  intro n
  induction n with
  | zero => intro a; exact List.Perm.refl a
  | succ i ih =>
    intro a
    exact List.Perm.trans (ih (swapL a (i + 1) (draw (i + 1))))
      (swapL_perm a (i + 1) (draw (i + 1)))

/-- Claim C9: for every input list and every sequence of random draws,
shuffleArray returns a permutation of its input — every element occurs in
the output exactly as often as in the input, so on the index list
[0, length) the result is a bijection. -/
theorem C9_shuffle_perm {α : Type} [DecidableEq α] (draw : Nat → Nat)
    (l : List α) :
    List.Perm (shuffleArray draw l) l ∧
      ∀ x : α, (shuffleArray draw l).count x = l.count x := by
  have h : List.Perm (shuffleArray draw l) l := fyLoop_perm draw _ l
  exact ⟨h, fun x => h.count_eq x⟩

end Mp3Player
